import Mathlib

/-!  Verification of `export_elevenlabs_voices.py`.

The program is a linear pipeline: fetch voices from an HTTP API, validate
that the parsed JSON has a `voices` key, dump the raw JSON to `voices.json`
and a flattened CSV to `voices.csv`.  We embed the parsed-JSON data model,
the two exporters, the relevant parts of the Python standard library
(`json.dumps` with `indent=2`, `json.loads`, `csv` with `QUOTE_ALL`,
`str.strip`, dict/`in`/iteration semantics) and the `main` driver as pure
Lean functions, and prove the specification claims about them.

Modelling notes:
* JSON numbers are modelled as integers; float syntax (and `NaN`/`Infinity`)
  is outside the model.
* The embedded `loads` rejects lone UTF-16 surrogate escapes (Lean `Char`
  holds Unicode scalar values only) and is slightly more lenient than
  CPython about leading zeros in numerals; neither corner is exercised by
  the serializer output or by any claim.
-/

namespace VoicesExport

/-- A parsed JSON value, as produced by Python's `json.loads`: object keys
are strings, object entries keep insertion order, numbers are modelled as
integers. -/
inductive Json where
  | null : Json
  | bool (b : Bool) : Json
  | num (n : Int) : Json
  | str (s : String) : Json
  | arr (xs : List Json) : Json
  | obj (kvs : List (String × Json)) : Json

/-- Exceptions of the Python runtime that the modelled code can raise. -/
inductive PyError where
  | attributeError : PyError
  | typeError : PyError
  | jsonDecodeError : PyError

/-- Python `dict` lookup on an association list (keys are unique, so the
first match is the binding). -/
def objGet : List (String × Json) → String → Option Json
  | [], _ => none
  | (k0, v0) :: rest, k => if k0 = k then some v0 else objGet rest k

/-- Python truthiness of a parsed JSON value (`bool(x)`). -/
def pyTruthy : Json → Bool
  | .null => false
  | .bool b => b
  | .num n => n != 0
  | .str s => !s.isEmpty
  | .arr xs => !xs.isEmpty
  | .obj kvs => !kvs.isEmpty

/-- `d.get(k, default)`: raises `AttributeError` when the receiver is not a
dict (no `get` method). -/
def pyGet (j : Json) (k : String) (d : Json) : Except PyError Json :=
  match j with
  | .obj kvs => .ok ((objGet kvs k).getD d)
  | _ => .error .attributeError

/-- Decimal digit character: `digitChar n = chr(48 + n)`. -/
def digitChar (n : Nat) : Char := Char.ofNat (48 + n)

/-- Fuelled decimal rendering of a natural number (`str(n)` for `n : Nat`);
the fuel is structural so that the kernel can evaluate it. -/
def natCharsGo : Nat → Nat → List Char
  | 0, _ => []
  | f + 1, n => if n < 10 then [digitChar n] else natCharsGo f (n / 10) ++ [digitChar (n % 10)]

/-- Decimal rendering of a natural number, as Python `str`. -/
def natChars (n : Nat) : List Char := natCharsGo (n + 1) n

/-- `str(n)` for a natural number. -/
def natStr (n : Nat) : String := String.mk (natChars n)

/-- `str(i)`/`repr(i)` for a Python int. -/
def intChars (i : Int) : List Char :=
  if i < 0 then '-' :: natChars (-i).toNat else natChars i.toNat

/-- `str(i)` for a Python int, as a `String`. -/
def intStr (i : Int) : String := String.mk (intChars i)

/-- Lower-case hexadecimal digit. -/
def hexDigitChar (n : Nat) : Char :=
  if n < 10 then Char.ofNat (48 + n) else Char.ofNat (87 + n)

/-- Single quote character (`chr(39)`). -/
def sq : Char := Char.ofNat 39

/-- One character of a Python `repr` of a string, escaped with respect to
the chosen quote character `q`.  Printable characters are kept verbatim;
`\n`/`\r`/`\t` use the short escapes, other control characters use `\xXX`. -/
def pyEscapeChar (q : Char) (c : Char) : List Char :=
  if c = '\\' then ['\\', '\\']
  else if c = q then ['\\', q]
  else if c = '\n' then ['\\', 'n']
  else if c = '\r' then ['\\', 'r']
  else if c = '\t' then ['\\', 't']
  else if c.toNat < 32 ∨ c.toNat = 127 then
    ['\\', 'x', hexDigitChar (c.toNat / 16), hexDigitChar (c.toNat % 16)]
  else [c]

/-- Python `repr` of a string: single-quoted unless the string contains a
single quote but no double quote. -/
def pyStrRepr (s : String) : List Char :=
  let q := if s.data.contains sq && !(s.data.contains '"') then '"' else sq
  q :: (s.data.map (pyEscapeChar q)).flatten ++ [q]

mutual

/-- Python `repr` of a parsed JSON value (used by `str()` on containers,
which is what the `csv` writer applies to non-string fields). -/
def pyRepr : Json → List Char
  | .null => "None".data
  | .bool true => "True".data
  | .bool false => "False".data
  | .num n => intChars n
  | .str s => pyStrRepr s
  | .arr xs => '[' :: pyReprElems xs ++ [']']
  | .obj kvs => '{' :: pyReprMembers kvs ++ ['}']

/-- `repr` of list elements, comma-space separated. -/
def pyReprElems : List Json → List Char
  | [] => []
  | [x] => pyRepr x
  | x :: y :: rest => pyRepr x ++ ',' :: ' ' :: pyReprElems (y :: rest)

/-- `repr` of dict entries, comma-space separated, `key: value`. -/
def pyReprMembers : List (String × Json) → List Char
  | [] => []
  | [(k, v)] => pyStrRepr k ++ ':' :: ' ' :: pyRepr v
  | (k, v) :: m :: rest =>
    pyStrRepr k ++ ':' :: ' ' :: pyRepr v ++ ',' :: ' ' :: pyReprMembers (m :: rest)

end

/-- The string the `csv` writer emits for a field value: strings are used
as-is, `None` becomes the empty string, everything else goes through
`str()`. -/
def fieldToStr : Json → String
  | .null => ""
  | .bool true => "True"
  | .bool false => "False"
  | .num n => intStr n
  | .str s => s
  | .arr xs => String.mk (pyRepr (.arr xs))
  | .obj kvs => String.mk (pyRepr (.obj kvs))

/-- The CSV column names, in the order fixed by `export_to_csv`. -/
def csvFieldnames : List String :=
  ["voice_id", "name", "category", "gender", "age", "accent", "description"]

/-- Double every `"` inside a CSV field (the `csv` module's quote escaping). -/
def quoteEsc : List Char → List Char
  | [] => []
  | c :: rest => if c = '"' then '"' :: '"' :: quoteEsc rest else c :: quoteEsc rest

/-- Render one CSV field under `QUOTE_ALL`: always wrapped in double quotes. -/
def csvRenderField (f : String) : String := String.mk ('"' :: quoteEsc f.data ++ ['"'])

/-- Render one CSV row: quoted fields joined by commas, terminated by the
default `\r\n` line terminator. -/
def csvRenderRow (r : List String) : String :=
  String.intercalate "," (r.map csvRenderField) ++ "\r\n"

/-- The text content of a CSV file holding the given rows. -/
def csvContent (rows : List (List String)) : String :=
  String.join (rows.map csvRenderRow)

/-- `v.get("labels", {}) or {}` — the effective labels value used for a
voice record: absent or falsy (`None`, `{}`, `0`, `""`, `[]`, `False`)
becomes `{}`; any truthy value is kept as-is. -/
def effLabels (kvs : List (String × Json)) : Json :=
  match objGet kvs "labels" with
  | none => .obj []
  | some x => if pyTruthy x then x else .obj []

/-- `v.get(k, "")` followed by the csv writer's string conversion. -/
def getStr (kvs : List (String × Json)) (k : String) : String :=
  fieldToStr ((objGet kvs k).getD (.str ""))

/-- The seven field strings of one CSV data row, given the record's entries
and the effective labels entries. -/
def rowFromParts (kvs lk : List (String × Json)) : List String :=
  [getStr kvs "voice_id", getStr kvs "name", getStr kvs "category",
   getStr lk "gender", getStr lk "age", getStr lk "accent",
   getStr kvs "description"]

/-- Build the CSV row for one element of the `voices` sequence, as the loop
body of `export_to_csv` does.  A non-dict element raises `AttributeError`
at `v.get`, and a truthy non-dict `labels` raises at `labels.get`. -/
def rowOf (v : Json) : Except PyError (List String) :=
  match v with
  | .obj kvs =>
    match effLabels kvs with
    | .obj lk => .ok (rowFromParts kvs lk)
    | _ => .error .attributeError
  | _ => .error .attributeError

/-- Total version of `rowOf` for well-formed records. -/
def rowFields (v : Json) : List String :=
  match v with
  | .obj kvs =>
    match effLabels kvs with
    | .obj lk => rowFromParts kvs lk
    | _ => []
  | _ => []

/-- A `voices` element that the CSV loop body processes without raising:
a dict whose effective labels value is a dict. -/
def recordOk (v : Json) : Bool :=
  match v with
  | .obj kvs =>
    match effLabels kvs with
    | .obj _ => true
    | _ => false
  | _ => false

/-- Python iteration (`for v in x`): lists yield elements, strings yield
their characters, dicts yield their keys; other values raise `TypeError`. -/
def pyIter : Json → Except PyError (List Json)
  | .arr xs => .ok xs
  | .str s => .ok (s.data.map fun c => .str (String.mk [c]))
  | .obj kvs => .ok (kvs.map fun kv => .str kv.1)
  | _ => .error .typeError

/-- Python `len` on the iterable values. -/
def pyLen : Json → Nat
  | .arr xs => xs.length
  | .str s => s.length
  | .obj kvs => kvs.length
  | _ => 0

/-- Run the CSV writer loop over the voices: the rows written before the
first raising element, plus the raised exception if any. -/
def writeRows : List Json → List (List String) × Option PyError
  | [] => ([], none)
  | v :: vs =>
    match rowOf v with
    | .error e => ([], some e)
    | .ok r =>
      let p := writeRows vs
      (r :: p.1, p.2)

/-- The observable outcome of `export_to_csv`: whether `voices.csv` was
opened (and hence created/truncated), the rows actually written to it in
order (header included), the uncaught exception if one was raised, and the
confirmation message printed on success. -/
structure CsvResult where
  created : Bool
  rows : List (List String)
  err : Option PyError
  msg : Option String

/-- The success message of `export_to_csv`. -/
def csvMsg (n : Nat) : String :=
  "Wrote CSV with " ++ natStr n ++ " voices to voices.csv"

/-- `export_to_csv(data)`: extract `data.get("voices", [])` (before opening
the file), open the file and write the header, then one row per element;
an exception stops the loop with the earlier rows already written. -/
def export_to_csv (data : Json) : CsvResult :=
  match pyGet data "voices" (.arr []) with
  | .error e => ⟨false, [], some e, none⟩
  | .ok voices =>
    match pyIter voices with
    | .error e => ⟨true, [csvFieldnames], some e, none⟩
    | .ok items =>
      let p := writeRows items
      match p.2 with
      | some e => ⟨true, csvFieldnames :: p.1, some e, none⟩
      | none => ⟨true, csvFieldnames :: p.1, none, some (csvMsg (pyLen voices))⟩

def witnessRecordA : Json :=
  .obj [("voice_id", .str "a1"), ("name", .str "Alice"),
        ("labels", .obj [("gender", .str "female")])]

def witnessRecordB : Json := .obj [("voice_id", .str "b2")]

def witnessJson : Json :=
  .obj [("voices", .arr [.obj [("voice_id", .str "a"), ("labels", .null)], .str "café"]),
        ("extra", .num (-42)), ("flag", .bool true), ("note", .str "line1\nline2 \"q\"")]

/-! ### JSON serialization (`json.dump(..., ensure_ascii, indent=2)`) -/

/-- Four lower-case hex digits. -/
def hex4 (n : Nat) : List Char :=
  [hexDigitChar (n / 4096 % 16), hexDigitChar (n / 256 % 16),
   hexDigitChar (n / 16 % 16), hexDigitChar (n % 16)]

/-- One escaped character of a JSON string, following CPython's encoder:
`"` and `\` and the named control escapes, `\uXXXX` for other control
characters, and (only when `ensure_ascii` is set) `\uXXXX` escapes —
with UTF-16 surrogate pairs beyond the BMP — for all non-ASCII characters. -/
def escapeChar (ea : Bool) (c : Char) : List Char :=
  if c = '"' then ['\\', '"']
  else if c = '\\' then ['\\', '\\']
  else if c = '\n' then ['\\', 'n']
  else if c = '\r' then ['\\', 'r']
  else if c = '\t' then ['\\', 't']
  else if c.toNat = 8 then ['\\', 'b']
  else if c.toNat = 12 then ['\\', 'f']
  else if c.toNat < 32 then '\\' :: 'u' :: hex4 c.toNat
  else if ea && 126 < c.toNat then
    if c.toNat < 65536 then '\\' :: 'u' :: hex4 c.toNat
    else '\\' :: 'u' :: hex4 (55296 + (c.toNat - 65536) / 1024) ++
         '\\' :: 'u' :: hex4 (56320 + (c.toNat - 65536) % 1024)
  else [c]

/-- The escaped body of a JSON string literal. -/
def escStr (ea : Bool) (s : String) : List Char :=
  (s.data.map (escapeChar ea)).flatten

/-- A JSON string literal: quoted escaped body. -/
def quoteStr (ea : Bool) (s : String) : List Char := '"' :: escStr ea s ++ ['"']

/-- Indentation for nesting level `lv` with `indent=2`. -/
def indChars (lv : Nat) : List Char := List.replicate (2 * lv) ' '

mutual

/-- Serialize a JSON value at nesting level `lv`, as
`json.dump(data, f, ensure_ascii=ea, indent=2)` renders it. -/
def dumpsVal (ea : Bool) (lv : Nat) : Json → List Char
  | .null => "null".data
  | .bool true => "true".data
  | .bool false => "false".data
  | .num n => intChars n
  | .str s => quoteStr ea s
  | .arr [] => ['[', ']']
  | .arr (x :: xs) =>
    '[' :: '\n' :: (indChars (lv + 1) ++ dumpsVal ea (lv + 1) x ++ dumpsRestA ea (lv + 1) xs
      ++ '\n' :: (indChars lv ++ [']']))
  | .obj [] => ['{', '}']
  | .obj ((k, v) :: ms) =>
    '{' :: '\n' :: (indChars (lv + 1) ++ quoteStr ea k ++ ':' :: ' ' ::
      (dumpsVal ea (lv + 1) v ++ dumpsRestO ea (lv + 1) ms ++ '\n' :: (indChars lv ++ ['}'])))

/-- The remaining array items, each preceded by `,\n` and indentation. -/
def dumpsRestA (ea : Bool) (lv : Nat) : List Json → List Char
  | [] => []
  | x :: xs => ',' :: '\n' :: (indChars lv ++ dumpsVal ea lv x ++ dumpsRestA ea lv xs)

/-- The remaining object members, each preceded by `,\n` and indentation. -/
def dumpsRestO (ea : Bool) (lv : Nat) : List (String × Json) → List Char
  | [] => []
  | (k, v) :: ms => ',' :: '\n' :: (indChars lv ++ quoteStr ea k ++ ':' :: ' ' ::
      (dumpsVal ea lv v ++ dumpsRestO ea lv ms))

end

/-- `json.dump(data, f, ensure_ascii=False, indent=2)` — the text written
to `voices.json`. -/
def dumps (d : Json) : String := String.mk (dumpsVal false 0 d)

/-- `json.dumps(data, indent=2)` (default `ensure_ascii=True`) — the
diagnostic dump printed by the validator. -/
def dumpsAscii (d : Json) : String := String.mk (dumpsVal true 0 d)

/-! ### JSON parsing (`json.loads`) -/

/-- JSON inter-token whitespace. -/
def isWsChar (c : Char) : Bool := c = ' ' || c = '\t' || c = '\n' || c = '\r'

/-- Skip leading JSON whitespace. -/
def skipWs : List Char → List Char
  | [] => []
  | c :: cs => if isWsChar c then skipWs cs else c :: cs

/-- Value of a hexadecimal digit character. -/
def hexVal (c : Char) : Option Nat :=
  if 48 ≤ c.toNat ∧ c.toNat ≤ 57 then some (c.toNat - 48)
  else if 97 ≤ c.toNat ∧ c.toNat ≤ 102 then some (c.toNat - 87)
  else if 65 ≤ c.toNat ∧ c.toNat ≤ 70 then some (c.toNat - 55)
  else none

/-- Named JSON string escapes. -/
def escTable (e : Char) : Option Char :=
  if e = '"' then some '"'
  else if e = '\\' then some '\\'
  else if e = '/' then some '/'
  else if e = 'b' then some (Char.ofNat 8)
  else if e = 'f' then some (Char.ofNat 12)
  else if e = 'n' then some '\n'
  else if e = 'r' then some '\r'
  else if e = 't' then some '\t'
  else none

/-- Combine four hex digits into a code unit. -/
def hex4Val (a b c d : Char) : Option Nat :=
  match hexVal a, hexVal b, hexVal c, hexVal d with
  | some x, some y, some z, some w => some (x * 4096 + y * 256 + z * 16 + w)
  | _, _, _, _ => none

/-- Fuelled parser for a JSON string body after the opening quote,
producing the decoded characters and the input after the closing quote.
Strict mode: raw control characters are rejected; `\uXXXX` escapes are
decoded, with surrogate pairs combined (lone surrogates are outside the
model).  One unit of fuel is spent per decoded character. -/
def parseStrBodyF : Nat → List Char → Option (List Char × List Char)
  | 0, _ => none
  | fuel + 1, cs =>
    match cs with
    | [] => none
    | c :: rest =>
      if c = '"' then some ([], rest)
      else if c = '\\' then
        match rest with
        | [] => none
        | e :: rest1 =>
          if e = 'u' then
            match rest1 with
            | a :: b :: c2 :: d :: rest2 =>
              match hex4Val a b c2 d with
              | none => none
              | some n =>
                if 55296 ≤ n ∧ n ≤ 56319 then
                  match rest2 with
                  | s1 :: s2 :: a2 :: b2 :: c3 :: d2 :: rest3 =>
                    if s1 = '\\' ∧ s2 = 'u' then
                      match hex4Val a2 b2 c3 d2 with
                      | some m =>
                        if 56320 ≤ m ∧ m ≤ 57343 then
                          match parseStrBodyF fuel rest3 with
                          | some (s, r) =>
                            some (Char.ofNat (65536 + (n - 55296) * 1024 + (m - 56320)) :: s, r)
                          | none => none
                        else none
                      | none => none
                    else none
                  | _ => none
                else if 56320 ≤ n ∧ n ≤ 57343 then none
                else
                  match parseStrBodyF fuel rest2 with
                  | some (s, r) => some (Char.ofNat n :: s, r)
                  | none => none
            | _ => none
          else
            match escTable e with
            | some ch =>
              match parseStrBodyF fuel rest1 with
              | some (s, r) => some (ch :: s, r)
              | none => none
            | none => none
      else if c.toNat < 32 then none
      else
        match parseStrBodyF fuel rest with
        | some (s, r) => some (c :: s, r)
        | none => none

/-- Parse a JSON string body; the input length bounds the number of decoded
characters, so it serves as fuel. -/
def parseStrBody (cs : List Char) : Option (List Char × List Char) :=
  parseStrBodyF (cs.length + 1) cs

/-- Accumulate decimal digits greedily. -/
def parseDigitsAux : List Char → Nat → Nat × List Char
  | [], v => (v, [])
  | c :: cs, v => if c.isDigit then parseDigitsAux cs (v * 10 + (c.toNat - 48)) else (v, c :: cs)

/-- Assemble the parsed numeral. -/
def numFromParts (neg : Bool) (n : Nat) : Json :=
  .num (if neg then -(n : Int) else (n : Int))

/-- Parse the digits of a JSON number (after an optional leading minus);
float syntax (a following `.`/`e`/`E`) is outside the model and rejected. -/
def parseNum (cs : List Char) (neg : Bool) : Option (Json × List Char) :=
  match cs with
  | [] => none
  | c :: rest =>
    if c.isDigit then
      match parseDigitsAux (c :: rest) 0 with
      | (n, []) => some (numFromParts neg n, [])
      | (n, c2 :: r2) =>
        if c2 = '.' ∨ c2 = 'e' ∨ c2 = 'E' then none
        else some (numFromParts neg n, c2 :: r2)
    else none

/-- Python dict insertion: an existing key keeps its position and gets the
new value, a new key is appended. -/
def dictInsert : List (String × Json) → String → Json → List (String × Json)
  | [], k, v => [(k, v)]
  | (k0, v0) :: rest, k, v =>
    if k0 = k then (k0, v) :: rest else (k0, v0) :: dictInsert rest k v

/-- Parser modes: a single value, the items of an array after the first
`[`, or the members of an object after the first `{` (with accumulators). -/
inductive PMode where
  | val : PMode
  | elems : List Json → PMode
  | members : List (String × Json) → PMode

/-- The recursive-descent JSON reader (`json.loads` without floats), with
structural fuel so the kernel can evaluate it. -/
def parseF : Nat → PMode → List Char → Option (Json × List Char)
  | 0, _, _ => none
  | fuel + 1, .val, cs =>
    match skipWs cs with
    | [] => none
    | c :: rest =>
      if c = '{' then
        match skipWs rest with
        | [] => none
        | c1 :: rest1 =>
          if c1 = '}' then some (.obj [], rest1) else parseF fuel (.members []) (c1 :: rest1)
      else if c = '[' then
        match skipWs rest with
        | [] => none
        | c1 :: rest1 =>
          if c1 = ']' then some (.arr [], rest1) else parseF fuel (.elems []) (c1 :: rest1)
      else if c = '"' then
        match parseStrBody rest with
        | some (s, r) => some (.str (String.mk s), r)
        | none => none
      else if c = 't' then
        match rest with
        | r1 :: r2 :: r3 :: rr =>
          if r1 = 'r' ∧ r2 = 'u' ∧ r3 = 'e' then some (.bool true, rr) else none
        | _ => none
      else if c = 'f' then
        match rest with
        | r1 :: r2 :: r3 :: r4 :: rr =>
          if r1 = 'a' ∧ r2 = 'l' ∧ r3 = 's' ∧ r4 = 'e' then some (.bool false, rr) else none
        | _ => none
      else if c = 'n' then
        match rest with
        | r1 :: r2 :: r3 :: rr =>
          if r1 = 'u' ∧ r2 = 'l' ∧ r3 = 'l' then some (.null, rr) else none
        | _ => none
      else if c = '-' then parseNum rest true
      else if c.isDigit then parseNum (c :: rest) false
      else none
  | fuel + 1, .elems acc, cs =>
    match parseF fuel .val cs with
    | none => none
    | some (v, rest) =>
      match skipWs rest with
      | [] => none
      | c :: rest1 =>
        if c = ',' then parseF fuel (.elems (acc ++ [v])) rest1
        else if c = ']' then some (.arr (acc ++ [v]), rest1)
        else none
  | fuel + 1, .members acc, cs =>
    match cs with
    | [] => none
    | c :: rest =>
      if c = '"' then
        match parseStrBody rest with
        | some (k, rest1) =>
          match skipWs rest1 with
          | [] => none
          | c1 :: rest2 =>
            if c1 = ':' then
              match parseF fuel .val rest2 with
              | some (v, rest3) =>
                match skipWs rest3 with
                | [] => none
                | c2 :: rest4 =>
                  if c2 = ',' then
                    parseF fuel (.members (dictInsert acc (String.mk k) v)) (skipWs rest4)
                  else if c2 = '}' then some (.obj (dictInsert acc (String.mk k) v), rest4)
                  else none
              | none => none
            else none
        | none => none
      else none

/-- `json.loads(s)`: parse one value, then allow only trailing whitespace. -/
def loads (s : String) : Option Json :=
  match parseF (s.data.length + 1) .val s.data with
  | some (j, rest) => if skipWs rest = [] then some j else none
  | none => none

/-! ### The CLI driver (`main`) -/

/-- Whitespace stripped by Python `str.strip()` (ASCII and Latin-1 range;
the rarer Unicode space characters are not exercised here). -/
def isPySpace (c : Char) : Bool :=
  c = ' ' || c = '\t' || c = '\n' || c = '\r' || c = '\x0b' || c = '\x0c' ||
  (28 ≤ c.toNat && c.toNat ≤ 31) || c.toNat = 133 || c.toNat = 160

/-- Python `s.strip()`. -/
def pyStrip (s : String) : String :=
  String.mk (((s.data.dropWhile isPySpace).reverse.dropWhile isPySpace).reverse)

/-- The fixed voices endpoint. -/
def API_URL : String := "https://api.elevenlabs.io/v1/voices"

/-- The single outbound HTTP request the program can make. -/
structure Request where
  url : String
  headers : List (String × String)

/-- The request `fetch_voices` builds for a given credential. -/
def mkReq (key : String) : Request := ⟨API_URL, [("xi-api-key", key)]⟩

/-- The possible outcomes of the one network call. -/
inductive HttpResp where
  | success (body : String) : HttpResp
  | httpError (code : Nat) (reason : String) (body : Option String) : HttpResp
  | urlError (reason : String) : HttpResp

/-- The externally observable outcome of one program run: exit code,
printed lines in order, files written (name, full content) in order, the
request issued (if the network call was reached), and the uncaught Python
exception if one terminated the run. -/
structure RunResult where
  exitCode : Nat
  output : List String
  files : List (String × String)
  request : Option Request
  uncaught : Option PyError

/-- Substring test on character lists (Python `needle in haystack` for
strings). -/
def strContainsSubL : List Char → List Char → Bool
  | [], n => n.isEmpty
  | c :: rest, n => n.isPrefixOf (c :: rest) || strContainsSubL rest n

/-- Membership of a string among list elements (Python `x in list` uses
`==`, and a str never equals a non-str). -/
def listHasStr : List Json → String → Bool
  | [], _ => false
  | .str s :: rest, k => s == k || listHasStr rest k
  | _ :: rest, k => listHasStr rest k

/-- Python `k in data`: dict key lookup, list membership, substring test on
strings; `in` on other values raises `TypeError`. -/
def hasKeyPy (j : Json) (k : String) : Except PyError Bool :=
  match j with
  | .obj kvs => .ok (objGet kvs k).isSome
  | .arr xs => .ok (listHasStr xs k)
  | .str s => .ok (strContainsSubL s.data k.data)
  | _ => .error .typeError

/-- The usage line printed when no argument is given. -/
def usageMsg : String := "Usage: python export_elevenlabs_voices.py ELEVENLABS_API_KEY"

/-- The message printed for an empty (post-strip) API key. -/
def emptyKeyMsg : String := "Error: empty API key."

/-- The progress message printed before the network call. -/
def fetchingMsg : String := "Fetching voices from ElevenLabs..."

/-- The warning printed when the response lacks a `voices` key. -/
def warnMsg : String := "Warning: \x27voices\x27 key not in response. Raw response:"

/-- The JSON exporter's confirmation message. -/
def wroteJsonMsg : String := "Wrote raw JSON to voices.json"

/-- `HTTP error: {code} {reason}`. -/
def httpMsg (code : Nat) (reason : String) : String :=
  "HTTP error: " ++ natStr code ++ " " ++ reason

/-- `Connection error: {reason}`. -/
def connMsg (reason : String) : String := "Connection error: " ++ reason

/-- `print("Response body:", body)`. -/
def bodyMsg (b : String) : String := "Response body: " ++ b

/-- The lines printed by the best-effort body read: nothing when reading
the error body itself fails (that failure is swallowed). -/
def bodyLines : Option String → List String
  | some b => [bodyMsg b]
  | none => []

/-- The whole program: argument checking, fetch (with its error handling),
validation, JSON export, CSV export. -/
def main (argv : List String) (resp : HttpResp) : RunResult :=
  if argv.length < 2 then ⟨1, [usageMsg], [], none, none⟩
  else if pyStrip (argv.getD 1 "") = "" then ⟨1, [emptyKeyMsg], [], none, none⟩
  else
    match resp with
    | .urlError reason =>
      ⟨1, [fetchingMsg, connMsg reason], [], some (mkReq (pyStrip (argv.getD 1 ""))), none⟩
    | .httpError code reason bodyOpt =>
      ⟨1, [fetchingMsg, httpMsg code reason] ++ bodyLines bodyOpt, [],
       some (mkReq (pyStrip (argv.getD 1 ""))), none⟩
    | .success body =>
      match loads body with
      | none =>
        ⟨1, [fetchingMsg], [], some (mkReq (pyStrip (argv.getD 1 ""))), some .jsonDecodeError⟩
      | some data =>
        match hasKeyPy data "voices" with
        | .error e => ⟨1, [fetchingMsg], [], some (mkReq (pyStrip (argv.getD 1 ""))), some e⟩
        | .ok false =>
          ⟨1, [fetchingMsg, warnMsg, dumpsAscii data], [],
           some (mkReq (pyStrip (argv.getD 1 ""))), none⟩
        | .ok true =>
          match (export_to_csv data).err with
          | some e =>
            ⟨1, [fetchingMsg, wroteJsonMsg],
             ("voices.json", dumps data) ::
               (if (export_to_csv data).created then
                  [("voices.csv", csvContent (export_to_csv data).rows)] else []),
             some (mkReq (pyStrip (argv.getD 1 ""))), some e⟩
          | none =>
            ⟨0, [fetchingMsg, wroteJsonMsg, (export_to_csv data).msg.getD ""],
             [("voices.json", dumps data), ("voices.csv", csvContent (export_to_csv data).rows)],
             some (mkReq (pyStrip (argv.getD 1 ""))), none⟩

/-! ### Round-trip infrastructure -/

/-- Boolean membership of a string in a list of strings. -/
def memStr (k : String) : List String → Bool
  | [] => false
  | a :: rest => (a == k) || memStr k rest

/-- All strings in the list are pairwise distinct. -/
def keysUniqueB : List String → Bool
  | [] => true
  | a :: rest => (!memStr a rest) && keysUniqueB rest

mutual

/-- Well-formedness of a parsed JSON value: object keys are unique at every
level (always true of structures produced by `json.loads`, since Python
dicts cannot hold duplicate keys). -/
def wfB : Json → Bool
  | .null => true
  | .bool _ => true
  | .num _ => true
  | .str _ => true
  | .arr xs => wfBList xs
  | .obj kvs => keysUniqueB (kvs.map Prod.fst) && wfBMembers kvs

/-- Well-formedness of all array elements. -/
def wfBList : List Json → Bool
  | [] => true
  | x :: xs => wfB x && wfBList xs

/-- Well-formedness of all object member values. -/
def wfBMembers : List (String × Json) → Bool
  | [] => true
  | (_, v) :: ms => wfB v && wfBMembers ms

end

mutual

/-- Fuel needed by `parseF` to read the serialization of a value. -/
def fuelFor : Json → Nat
  | .null => 1
  | .bool _ => 1
  | .num _ => 1
  | .str _ => 1
  | .arr [] => 1
  | .arr (x :: xs) => 1 + (1 + fuelFor x + fuelElems xs)
  | .obj [] => 1
  | .obj ((_, v) :: ms) => 1 + (1 + fuelFor v + fuelMembers ms)

/-- Fuel needed by the `.elems` mode for the remaining items. -/
def fuelElems : List Json → Nat
  | [] => 0
  | x :: xs => 1 + fuelFor x + fuelElems xs

/-- Fuel needed by the `.members` mode for the remaining members. -/
def fuelMembers : List (String × Json) → Nat
  | [] => 0
  | (_, v) :: ms => 1 + fuelFor v + fuelMembers ms

end

/-- After a serialized value, the input continues with a delimiter (or
ends): this is what makes number parsing stop in the right place. -/
def delimB : List Char → Bool
  | [] => true
  | c :: _ => c = ',' || c = '\n' || c = ']' || c = '}'

lemma rowOf_eq_rowFields (v : Json) (h : recordOk v = true) :
    rowOf v = .ok (rowFields v) := by
  cases v with
  | obj kvs =>
    unfold recordOk at h
    unfold rowOf rowFields
    cases hl : effLabels kvs <;> simp_all
  | null => simp [recordOk] at h
  | bool b => simp [recordOk] at h
  | num n => simp [recordOk] at h
  | str s => simp [recordOk] at h
  | arr xs => simp [recordOk] at h

lemma writeRows_ok (vs : List Json) (h : ∀ v ∈ vs, recordOk v = true) :
    writeRows vs = (vs.map rowFields, none) := by
  induction vs with
  | nil => rfl
  | cons v vs ih =>
    have hv : recordOk v = true := h v (List.mem_cons_self v vs)
    have hrest : ∀ w ∈ vs, recordOk w = true := fun w hw => h w (List.mem_cons_of_mem v hw)
    unfold writeRows
    rw [rowOf_eq_rowFields v hv, ih hrest]
    simp

/-- C1: for every parsed response whose `voices` key maps to a sequence of
length N of voice records, the CSV export writes exactly one header row
followed by exactly N data rows, one per record, in the original order. -/
theorem c1_csv_row_count (kvs : List (String × Json)) (vs : List Json)
    (hv : objGet kvs "voices" = some (.arr vs))
    (hrec : ∀ v ∈ vs, recordOk v = true) :
    export_to_csv (.obj kvs) =
      ⟨true, csvFieldnames :: vs.map rowFields, none, some (csvMsg vs.length)⟩ ∧
    (csvFieldnames :: vs.map rowFields).length = vs.length + 1 := by
  constructor
  · simp [export_to_csv, pyGet, hv, pyIter, writeRows_ok vs hrec, pyLen]
  · simp

theorem c1_csv_row_count_witness :
    export_to_csv (.obj [("voices", .arr [witnessRecordA, witnessRecordB])]) =
      ⟨true, csvFieldnames :: [witnessRecordA, witnessRecordB].map rowFields, none,
       some (csvMsg 2)⟩ ∧
    (csvFieldnames :: [witnessRecordA, witnessRecordB].map rowFields).length = 2 + 1 :=
  c1_csv_row_count _ [witnessRecordA, witnessRecordB] rfl (by decide)

/-- C2: for a voice record (a dict) whose effective labels value is a dict,
the row is produced without raising, and every field whose key is absent
from the record (resp. from labels) comes out as the empty string, which is
neither the text `null` nor `None`. -/
theorem c2_missing_fields_empty (kvs lk : List (String × Json))
    (hl : effLabels kvs = .obj lk) :
    rowOf (.obj kvs) = .ok (rowFromParts kvs lk) ∧
    (objGet kvs "voice_id" = none → (rowFromParts kvs lk)[0]? = some "") ∧
    (objGet kvs "name" = none → (rowFromParts kvs lk)[1]? = some "") ∧
    (objGet kvs "category" = none → (rowFromParts kvs lk)[2]? = some "") ∧
    (objGet lk "gender" = none → (rowFromParts kvs lk)[3]? = some "") ∧
    (objGet lk "age" = none → (rowFromParts kvs lk)[4]? = some "") ∧
    (objGet lk "accent" = none → (rowFromParts kvs lk)[5]? = some "") ∧
    (objGet kvs "description" = none → (rowFromParts kvs lk)[6]? = some "") ∧
    ("" : String) ≠ "null" ∧ ("" : String) ≠ "None" := by
  refine ⟨?_, ?_, ?_, ?_, ?_, ?_, ?_, ?_, by decide, by decide⟩
  · simp only [rowOf]
    rw [hl]
  all_goals
    intro h
    simp [rowFromParts, getStr, h, fieldToStr]

theorem c2_missing_fields_empty_witness :
    rowOf (.obj [("voice_id", .str "x")]) = .ok (rowFromParts [("voice_id", .str "x")] []) ∧
    (objGet [("voice_id", Json.str "x")] "voice_id" = none →
      (rowFromParts [("voice_id", .str "x")] [])[0]? = some "") ∧
    (objGet [("voice_id", Json.str "x")] "name" = none →
      (rowFromParts [("voice_id", .str "x")] [])[1]? = some "") ∧
    (objGet [("voice_id", Json.str "x")] "category" = none →
      (rowFromParts [("voice_id", .str "x")] [])[2]? = some "") ∧
    (objGet ([] : List (String × Json)) "gender" = none →
      (rowFromParts [("voice_id", .str "x")] [])[3]? = some "") ∧
    (objGet ([] : List (String × Json)) "age" = none →
      (rowFromParts [("voice_id", .str "x")] [])[4]? = some "") ∧
    (objGet ([] : List (String × Json)) "accent" = none →
      (rowFromParts [("voice_id", .str "x")] [])[5]? = some "") ∧
    (objGet [("voice_id", Json.str "x")] "description" = none →
      (rowFromParts [("voice_id", .str "x")] [])[6]? = some "") ∧
    ("" : String) ≠ "null" ∧ ("" : String) ≠ "None" :=
  c2_missing_fields_empty [("voice_id", .str "x")] [] rfl

/-- C3: whenever the CSV export opens its output file, the first row is the
fixed seven-column header, rendered exactly as the expected quoted header
line, and every rendered field of every row is wrapped in double quotes. -/
theorem c3_header_and_quoting (data : Json)
    (h : (export_to_csv data).created = true) :
    (export_to_csv data).rows.head? = some csvFieldnames ∧
    csvRenderRow csvFieldnames =
      "\"voice_id\",\"name\",\"category\",\"gender\",\"age\",\"accent\",\"description\"\r\n" ∧
    ∀ r ∈ (export_to_csv data).rows, ∀ f ∈ r,
      ∃ core, csvRenderField f = String.mk ('"' :: core ++ ['"']) := by
  refine ⟨?_, by rfl, ?_⟩
  · cases data with
    | obj kvs =>
      cases hit : pyIter ((objGet kvs "voices").getD (.arr [])) with
      | error e => simp [export_to_csv, pyGet, hit]
      | ok items =>
        cases hw : (writeRows items).2 <;>
          simp [export_to_csv, pyGet, hit, hw]
    | null => simp [export_to_csv, pyGet] at h
    | bool b => simp [export_to_csv, pyGet] at h
    | num n => simp [export_to_csv, pyGet] at h
    | str s => simp [export_to_csv, pyGet] at h
    | arr xs => simp [export_to_csv, pyGet] at h
  · intro r _ f _
    exact ⟨quoteEsc f.data, rfl⟩

theorem c3_header_and_quoting_witness :
    (export_to_csv (.obj [])).rows.head? = some csvFieldnames ∧
    csvRenderRow csvFieldnames =
      "\"voice_id\",\"name\",\"category\",\"gender\",\"age\",\"accent\",\"description\"\r\n" ∧
    ∀ r ∈ (export_to_csv (.obj [])).rows, ∀ f ∈ r,
      ∃ core, csvRenderField f = String.mk ('"' :: core ++ ['"']) :=
  c3_header_and_quoting (.obj []) rfl

/-- C9: a voice record whose `labels` key is present but maps to `None` is
treated exactly like one with no `labels` mapping: the effective labels are
the empty dict, no error is raised, and the gender/age/accent columns are
empty strings. -/
theorem c9_null_labels (kvs : List (String × Json))
    (h : objGet kvs "labels" = some .null) :
    effLabels kvs = .obj [] ∧
    rowOf (.obj kvs) = .ok (rowFromParts kvs []) ∧
    (rowFromParts kvs [])[3]? = some "" ∧
    (rowFromParts kvs [])[4]? = some "" ∧
    (rowFromParts kvs [])[5]? = some "" := by
  have hl : effLabels kvs = .obj [] := by
    unfold effLabels
    rw [h]
    rfl
  refine ⟨hl, ?_, by simp [rowFromParts, getStr, objGet, fieldToStr],
    by simp [rowFromParts, getStr, objGet, fieldToStr],
    by simp [rowFromParts, getStr, objGet, fieldToStr]⟩
  simp only [rowOf]
  rw [hl]

lemma main_request (argv : List String) (resp : HttpResp)
    (h1 : ¬ argv.length < 2) (hk : ¬ pyStrip (argv.getD 1 "") = "") :
    (main argv resp).request = some (mkReq (pyStrip (argv.getD 1 ""))) := by
  cases resp with
  | urlError reason =>
    unfold main
    rw [if_neg h1, if_neg hk]
  | httpError code reason bodyOpt =>
    unfold main
    rw [if_neg h1, if_neg hk]
  | success body =>
    unfold main
    rw [if_neg h1, if_neg hk]
    dsimp only
    cases hld : loads body with
    | none => rfl
    | some data =>
      cases hkk : hasKeyPy data "voices" with
      | error e => simp [hkk]
      | ok b =>
        cases b with
        | false => simp [hkk]
        | true =>
          cases herr : (export_to_csv data).err with
          | none => simp [hkk, herr]
          | some e => simp [hkk, herr]

/-- C4: when the fetched body parses to a structure on which the `voices`
membership test is defined and false, the program prints the warning and
the pretty-printed (2-space indented, ASCII-escaped) raw structure, exits
with code 1, and writes no files. -/
theorem c4_missing_voices_key (argv : List String) (body : String) (data : Json)
    (h2 : 2 ≤ argv.length) (hk : pyStrip (argv.getD 1 "") ≠ "")
    (hload : loads body = some data)
    (hkey : hasKeyPy data "voices" = .ok false) :
    main argv (.success body) =
      ⟨1, [fetchingMsg, warnMsg, dumpsAscii data], [],
       some (mkReq (pyStrip (argv.getD 1 ""))), none⟩ := by
  have h1 : ¬ argv.length < 2 := by omega
  unfold main
  rw [if_neg h1, if_neg hk]
  simp [hload, hkey]

theorem c4_missing_voices_key_witness :
    main ["prog", "k"] (.success "\x7b\"not_voices\": []\x7d") =
      ⟨1, [fetchingMsg, warnMsg, dumpsAscii (.obj [("not_voices", .arr [])])], [],
       some (mkReq (pyStrip (["prog", "k"].getD 1 ""))), none⟩ :=
  c4_missing_voices_key ["prog", "k"] _ (.obj [("not_voices", .arr [])])
    (by decide) (by decide) rfl rfl

/-- C5: an HTTP error response makes the program print the numeric status
code with the reason phrase, print the response body when the best-effort
body read succeeds (a failed body read is swallowed and prints nothing),
exit with code 1, and write no files. -/
theorem c5_http_error (argv : List String) (code : Nat) (reason : String)
    (bodyOpt : Option String)
    (h2 : 2 ≤ argv.length) (hk : pyStrip (argv.getD 1 "") ≠ "") :
    main argv (.httpError code reason bodyOpt) =
      ⟨1, [fetchingMsg, httpMsg code reason] ++ bodyLines bodyOpt, [],
       some (mkReq (pyStrip (argv.getD 1 ""))), none⟩ := by
  have h1 : ¬ argv.length < 2 := by omega
  unfold main
  rw [if_neg h1, if_neg hk]

theorem c5_http_error_witness :
    main ["prog", "k"] (.httpError 401 "Unauthorized" (some "\x7b\"detail\":\"invalid key\"\x7d")) =
      ⟨1, [fetchingMsg, httpMsg 401 "Unauthorized"] ++
         bodyLines (some "\x7b\"detail\":\"invalid key\"\x7d"), [],
       some (mkReq (pyStrip (["prog", "k"].getD 1 ""))), none⟩ :=
  c5_http_error ["prog", "k"] 401 "Unauthorized" _ (by decide) (by decide)

/-- C6: with no credential argument, or an argument that strips to the
empty string, the program prints the usage line (resp. the empty-key
error), exits with code 1, and never builds the network request. -/
theorem c6_usage_error (argv : List String) (resp : HttpResp)
    (h : argv.length < 2 ∨ pyStrip (argv.getD 1 "") = "") :
    main argv resp = ⟨1, [usageMsg], [], none, none⟩ ∨
    main argv resp = ⟨1, [emptyKeyMsg], [], none, none⟩ := by
  by_cases h1 : argv.length < 2
  · left
    unfold main
    rw [if_pos h1]
  · right
    have hempty : pyStrip (argv.getD 1 "") = "" := h.resolve_left h1
    unfold main
    rw [if_neg h1, if_pos hempty]

theorem c6_usage_error_witness :
    main [] (.urlError "x") = ⟨1, [usageMsg], [], none, none⟩ ∨
    main [] (.urlError "x") = ⟨1, [emptyKeyMsg], [], none, none⟩ :=
  c6_usage_error [] (.urlError "x") (Or.inl (by decide))

/-- C8 (counterexample): with the credential argument `" k "` the program
reaches the network call but sends the header value `"k"`, which differs
from the string supplied by the caller — the credential is not forwarded
verbatim. -/
theorem c8_counterexample :
    (main ["prog", " k "] (.urlError "down")).request =
      some ⟨API_URL, [("xi-api-key", "k")]⟩ ∧
    (" k " : String) ≠ "k" := by
  constructor
  · rfl
  · decide

/-- C8 (amended): every invocation that reaches the network call forwards
the credential argument with surrounding whitespace stripped, unchanged
otherwise, as the `xi-api-key` header; in particular an argument with no
surrounding whitespace is forwarded verbatim. -/
theorem c8_header_stripped (argv : List String) (resp : HttpResp)
    (h2 : 2 ≤ argv.length) (hk : pyStrip (argv.getD 1 "") ≠ "") :
    (main argv resp).request =
      some ⟨API_URL, [("xi-api-key", pyStrip (argv.getD 1 ""))]⟩ ∧
    (pyStrip (argv.getD 1 "") = argv.getD 1 "" →
      (main argv resp).request = some ⟨API_URL, [("xi-api-key", argv.getD 1 "")]⟩) := by
  have h1 : ¬ argv.length < 2 := by omega
  have hreq := main_request argv resp h1 hk
  exact ⟨hreq, fun hs => by rw [hreq, mkReq, hs]⟩

theorem c8_header_stripped_witness :
    (main ["prog", "secret"] (.urlError "down")).request =
      some ⟨API_URL, [("xi-api-key", pyStrip (["prog", "secret"].getD 1 ""))]⟩ ∧
    (pyStrip (["prog", "secret"].getD 1 "") = ["prog", "secret"].getD 1 "" →
      (main ["prog", "secret"] (.urlError "down")).request =
        some ⟨API_URL, [("xi-api-key", ["prog", "secret"].getD 1 "")]⟩) :=
  c8_header_stripped ["prog", "secret"] (.urlError "down") (by decide) (by decide)

lemma export_to_csv_voices_null (kvs : List (String × Json))
    (hv : objGet kvs "voices" = some .null) :
    export_to_csv (.obj kvs) = ⟨true, [csvFieldnames], some .typeError, none⟩ := by
  simp [export_to_csv, pyGet, hv, pyIter]

/-- C10: a response whose `voices` key maps to `null` passes validation,
gets `voices.json` written, and then the CSV export raises an uncaught
`TypeError` (iterating `None`) after writing only the header row, so the
run ends with exit code 1 and `voices.json` (plus a header-only
`voices.csv`) on disk. -/
theorem c10_voices_null (argv : List String) (body : String)
    (kvs : List (String × Json))
    (h2 : 2 ≤ argv.length) (hk : pyStrip (argv.getD 1 "") ≠ "")
    (hload : loads body = some (.obj kvs))
    (hv : objGet kvs "voices" = some .null) :
    main argv (.success body) =
      ⟨1, [fetchingMsg, wroteJsonMsg],
       [("voices.json", dumps (.obj kvs)), ("voices.csv", csvContent [csvFieldnames])],
       some (mkReq (pyStrip (argv.getD 1 ""))), some .typeError⟩ := by
  have h1 : ¬ argv.length < 2 := by omega
  have hkey : hasKeyPy (.obj kvs) "voices" = .ok true := by
    simp [hasKeyPy, hv]
  unfold main
  rw [if_neg h1, if_neg hk]
  simp [hload, hkey, export_to_csv_voices_null kvs hv]

theorem c10_voices_null_witness :
    main ["prog", "k"] (.success "\x7b\"voices\": null\x7d") =
      ⟨1, [fetchingMsg, wroteJsonMsg],
       [("voices.json", dumps (.obj [("voices", .null)])),
        ("voices.csv", csvContent [csvFieldnames])],
       some (mkReq (pyStrip (["prog", "k"].getD 1 ""))), some .typeError⟩ :=
  c10_voices_null ["prog", "k"] _ [("voices", .null)] (by decide) (by decide) rfl rfl

theorem c9_null_labels_witness :
    effLabels [("labels", Json.null)] = .obj [] ∧
    rowOf (.obj [("labels", Json.null)]) = .ok (rowFromParts [("labels", Json.null)] []) ∧
    (rowFromParts [("labels", Json.null)] [])[3]? = some "" ∧
    (rowFromParts [("labels", Json.null)] [])[4]? = some "" ∧
    (rowFromParts [("labels", Json.null)] [])[5]? = some "" :=
  c9_null_labels [("labels", .null)] rfl

/-! ### Round-trip helper lemmas -/

lemma string_mk_data : ∀ s : String, String.mk s.data = s
  | ⟨_⟩ => rfl

lemma hex4Val_hex4_lt32 : ∀ n, n < 32 →
    hex4Val (hexDigitChar (n / 4096 % 16)) (hexDigitChar (n / 256 % 16))
      (hexDigitChar (n / 16 % 16)) (hexDigitChar (n % 16)) = some n := by decide

lemma digitChar_digit : ∀ n, n < 10 →
    (digitChar n).isDigit = true ∧ (digitChar n).toNat = 48 + n := by decide

lemma isDigit_ne (c : Char) (h : c.isDigit = true) :
    isWsChar c = false ∧ c ≠ ']' ∧ c ≠ '{' ∧ c ≠ '[' ∧ c ≠ '"' ∧ c ≠ 't' ∧
      c ≠ 'f' ∧ c ≠ 'n' ∧ c ≠ '-' := by
  refine ⟨?_, ?_, ?_, ?_, ?_, ?_, ?_, ?_, ?_⟩
  · simp only [isWsChar, Bool.or_eq_false_iff, decide_eq_false_iff_not]
    refine ⟨⟨⟨fun hc => ?_, fun hc => ?_⟩, fun hc => ?_⟩, fun hc => ?_⟩ <;>
      (subst hc; exact absurd h (by decide))
  all_goals intro hc; subst hc; exact absurd h (by decide)

lemma skipWs_cons_not {c : Char} (cs : List Char) (h : isWsChar c = false) :
    skipWs (c :: cs) = c :: cs := by simp [skipWs, h]

lemma skipWs_replicate (n : Nat) (l : List Char) :
    skipWs (List.replicate n ' ' ++ l) = skipWs l := by
  induction n with
  | zero => simp
  | succ m ih => simpa [List.replicate, skipWs, isWsChar] using ih

lemma skipWs_ind (lv : Nat) (l : List Char) : skipWs (indChars lv ++ l) = skipWs l :=
  skipWs_replicate (2 * lv) l

lemma skipWs_nl (l : List Char) : skipWs ('\n' :: l) = skipWs l := by
  simp [skipWs, isWsChar]

lemma skipWs_sp (l : List Char) : skipWs (' ' :: l) = skipWs l := by
  simp [skipWs, isWsChar]

lemma natCharsGo_head : ∀ f n, n < f →
    ∃ d ds, natCharsGo f n = d :: ds ∧ d.isDigit = true := by
  intro f
  induction f with
  | zero => intro n h; omega
  | succ m ih =>
    intro n h
    by_cases h10 : n < 10
    · exact ⟨digitChar n, [], by simp [natCharsGo, h10], (digitChar_digit n h10).1⟩
    · have hlt : n / 10 < m := by omega
      obtain ⟨d, ds, hgo, hd⟩ := ih (n / 10) hlt
      exact ⟨d, ds ++ [digitChar (n % 10)], by simp [natCharsGo, h10, hgo], hd⟩

lemma natChars_head (n : Nat) : ∃ d ds, natChars n = d :: ds ∧ d.isDigit = true :=
  natCharsGo_head (n + 1) n (by omega)

lemma parseDigitsAux_go : ∀ f n, n < f → ∀ v rest,
    parseDigitsAux (natCharsGo f n ++ rest) v =
      parseDigitsAux rest (v * 10 ^ (natCharsGo f n).length + n) := by
  intro f
  induction f with
  | zero => intro n h; omega
  | succ m ih =>
    intro n h v rest
    by_cases h10 : n < 10
    · have hd := digitChar_digit n h10
      simp only [natCharsGo, if_pos h10, List.singleton_append, List.length_singleton,
        parseDigitsAux, hd.1, hd.2, if_true, pow_one]
      congr 2
      omega
    · have hlt : n / 10 < m := by omega
      have hd := digitChar_digit (n % 10) (by omega)
      have hsplit : natCharsGo (m + 1) n = natCharsGo m (n / 10) ++ [digitChar (n % 10)] := by
        simp [natCharsGo, h10]
      rw [hsplit, List.append_assoc, ih (n / 10) hlt v _, List.singleton_append,
        parseDigitsAux, List.length_append, List.length_singleton]
      simp only [hd.1, if_true, hd.2]
      have harith : (v * 10 ^ (natCharsGo m (n / 10)).length + n / 10) * 10 +
          (48 + n % 10 - 48) = v * 10 ^ ((natCharsGo m (n / 10)).length + 1) + n := by
        rw [show 48 + n % 10 - 48 = n % 10 from by omega, pow_succ]
        generalize (10 : Nat) ^ (natCharsGo m (n / 10)).length = P
        have hdm : n / 10 * 10 + n % 10 = n := by omega
        calc (v * P + n / 10) * 10 + n % 10
            = v * (P * 10) + (n / 10 * 10 + n % 10) := by ring
          _ = v * (P * 10) + n := by rw [hdm]
      rw [harith]

lemma parseDigitsAux_stop (rest : List Char) (v : Nat) (h : delimB rest = true) :
    parseDigitsAux rest v = (v, rest) := by
  cases rest with
  | nil => rfl
  | cons c t =>
    simp only [delimB, Bool.or_eq_true, decide_eq_true_eq] at h
    rcases h with ((h | h) | h) | h <;> subst h <;> simp [parseDigitsAux]

lemma parseNum_natChars (n : Nat) (neg : Bool) (rest : List Char) (h : delimB rest = true) :
    parseNum (natChars n ++ rest) neg = some (numFromParts neg n, rest) := by
  obtain ⟨d, ds, hnc, hd⟩ := natChars_head n
  have hgo : parseDigitsAux (natChars n ++ rest) 0 = (n, rest) := by
    unfold natChars
    rw [parseDigitsAux_go (n + 1) n (by omega) 0 rest,
      parseDigitsAux_stop rest _ h]
    simp
  have hform : natChars n ++ rest = d :: (ds ++ rest) := by rw [hnc]; simp
  rw [hform] at hgo ⊢
  unfold parseNum
  simp only [hd, if_true]
  rw [hgo]
  cases rest with
  | nil => rfl
  | cons c t =>
    simp only [delimB, Bool.or_eq_true, decide_eq_true_eq] at h
    rcases h with ((h | h) | h) | h <;> subst h <;> simp

set_option maxHeartbeats 1000000 in
lemma escapeChar_length_pos (ea : Bool) (c : Char) : 1 ≤ (escapeChar ea c).length := by
  unfold escapeChar
  split_ifs <;> simp [hex4]

lemma parseStrBodyF_step_quote (f : Nat) (t : List Char) :
    parseStrBodyF (f + 1) ('"' :: t) = some ([], t) := by simp [parseStrBodyF]

lemma parseStrBodyF_step_esc (f : Nat) (e ch : Char) (he : escTable e = some ch)
    (hne : e ≠ 'u') (t : List Char) :
    parseStrBodyF (f + 1) ('\\' :: e :: t) =
      match parseStrBodyF f t with
      | some (s, r) => some (ch :: s, r)
      | none => none := by
  simp [parseStrBodyF, hne, he]

lemma parseStrBodyF_step_u (f : Nat) (a b c2 d : Char) (n : Nat) (t : List Char)
    (hx : hex4Val a b c2 d = some n)
    (hn1 : ¬ (55296 ≤ n ∧ n ≤ 56319)) (hn2 : ¬ (56320 ≤ n ∧ n ≤ 57343)) :
    parseStrBodyF (f + 1) ('\\' :: 'u' :: a :: b :: c2 :: d :: t) =
      match parseStrBodyF f t with
      | some (s, r) => some (Char.ofNat n :: s, r)
      | none => none := by
  simp [parseStrBodyF, hx, hn1, hn2]

lemma parseStrBodyF_step_plain (f : Nat) (c : Char) (t : List Char)
    (h1 : c ≠ '"') (h2 : c ≠ '\\') (h3 : ¬ c.toNat < 32) :
    parseStrBodyF (f + 1) (c :: t) =
      match parseStrBodyF f t with
      | some (s, r) => some (c :: s, r)
      | none => none := by
  simp [parseStrBodyF, h1, h2, h3]

lemma escFlatten_length (ea : Bool) (s : List Char) :
    s.length ≤ (s.map (escapeChar ea)).flatten.length := by
  induction s with
  | nil => simp
  | cons c cs ih =>
    simp only [List.map_cons, List.flatten_cons, List.length_append, List.length_cons]
    have := escapeChar_length_pos ea c
    omega

lemma parseStrBodyF_escape (s : List Char) : ∀ (k : Nat) (rest : List Char),
    parseStrBodyF (k + (s.length + 1)) ((s.map (escapeChar false)).flatten ++ '"' :: rest) =
      some (s, rest) := by
  induction s with
  | nil =>
    intro k rest
    simp [parseStrBodyF]
  | cons c cs ih =>
    intro k rest
    have hf : k + ((c :: cs).length + 1) = (k + (cs.length + 1)) + 1 := by
      simp
      omega
    rw [hf]
    by_cases h1 : c = '"'
    · subst h1
      have hl : ((('"' :: cs).map (escapeChar false)).flatten ++ '"' :: rest) =
          '\\' :: '"' :: ((cs.map (escapeChar false)).flatten ++ '"' :: rest) := by
        simp [escapeChar]
      rw [hl, parseStrBodyF_step_esc _ '"' '"' rfl (by decide) _, ih k rest]
    · by_cases h2 : c = '\\'
      · subst h2
        have hl : ((('\\' :: cs).map (escapeChar false)).flatten ++ '"' :: rest) =
            '\\' :: '\\' :: ((cs.map (escapeChar false)).flatten ++ '"' :: rest) := by
          simp [escapeChar]
        rw [hl, parseStrBodyF_step_esc _ '\\' '\\' rfl (by decide) _, ih k rest]
      · by_cases h3 : c = '\n'
        · subst h3
          have hl : ((('\n' :: cs).map (escapeChar false)).flatten ++ '"' :: rest) =
              '\\' :: 'n' :: ((cs.map (escapeChar false)).flatten ++ '"' :: rest) := by
            simp [escapeChar]
          rw [hl, parseStrBodyF_step_esc _ 'n' '\n' rfl (by decide) _, ih k rest]
        · by_cases h4 : c = '\r'
          · subst h4
            have hl : ((('\r' :: cs).map (escapeChar false)).flatten ++ '"' :: rest) =
                '\\' :: 'r' :: ((cs.map (escapeChar false)).flatten ++ '"' :: rest) := by
              simp [escapeChar]
            rw [hl, parseStrBodyF_step_esc _ 'r' '\r' rfl (by decide) _, ih k rest]
          · by_cases h5 : c = '\t'
            · subst h5
              have hl : ((('\t' :: cs).map (escapeChar false)).flatten ++ '"' :: rest) =
                  '\\' :: 't' :: ((cs.map (escapeChar false)).flatten ++ '"' :: rest) := by
                simp [escapeChar]
              rw [hl, parseStrBodyF_step_esc _ 't' '\t' rfl (by decide) _, ih k rest]
            · by_cases h6 : c.toNat = 8
              · have hc : Char.ofNat 8 = c := by rw [← h6, Char.ofNat_toNat]
                have hl : (((c :: cs).map (escapeChar false)).flatten ++ '"' :: rest) =
                    '\\' :: 'b' :: ((cs.map (escapeChar false)).flatten ++ '"' :: rest) := by
                  simp [escapeChar, h1, h2, h3, h4, h5, h6]
                rw [hl, parseStrBodyF_step_esc _ 'b' (Char.ofNat 8) rfl (by decide) _, ih k rest]
                simp
                exact hc
              · by_cases h7 : c.toNat = 12
                · have hc : Char.ofNat 12 = c := by rw [← h7, Char.ofNat_toNat]
                  have hl : (((c :: cs).map (escapeChar false)).flatten ++ '"' :: rest) =
                      '\\' :: 'f' :: ((cs.map (escapeChar false)).flatten ++ '"' :: rest) := by
                    simp [escapeChar, h1, h2, h3, h4, h5, h6, h7]
                  rw [hl, parseStrBodyF_step_esc _ 'f' (Char.ofNat 12) rfl (by decide) _, ih k rest]
                  simp
                  exact hc
                · by_cases h8 : c.toNat < 32
                  · have hx := hex4Val_hex4_lt32 c.toNat h8
                    have hs1 : ¬ (55296 ≤ c.toNat ∧ c.toNat ≤ 56319) := by omega
                    have hs2 : ¬ (56320 ≤ c.toNat ∧ c.toNat ≤ 57343) := by omega
                    have hc : Char.ofNat c.toNat = c := Char.ofNat_toNat c
                    have hl : (((c :: cs).map (escapeChar false)).flatten ++ '"' :: rest) =
                        '\\' :: 'u' :: hexDigitChar (c.toNat / 4096 % 16) ::
                          hexDigitChar (c.toNat / 256 % 16) ::
                          hexDigitChar (c.toNat / 16 % 16) :: hexDigitChar (c.toNat % 16) ::
                          ((cs.map (escapeChar false)).flatten ++ '"' :: rest) := by
                      simp [escapeChar, h1, h2, h3, h4, h5, h6, h7, h8, hex4]
                    rw [hl, parseStrBodyF_step_u _ _ _ _ _ c.toNat _ hx hs1 hs2, ih k rest, hc]
                  · have hl : (((c :: cs).map (escapeChar false)).flatten ++ '"' :: rest) =
                        c :: ((cs.map (escapeChar false)).flatten ++ '"' :: rest) := by
                      simp [escapeChar, h1, h2, h3, h4, h5, h6, h7, h8]
                    rw [hl, parseStrBodyF_step_plain _ _ _ h1 h2 h8, ih k rest]

lemma parseStrBody_escape (s : List Char) (rest : List Char) :
    parseStrBody ((s.map (escapeChar false)).flatten ++ '"' :: rest) = some (s, rest) := by
  unfold parseStrBody
  have hlen := escFlatten_length false s
  have hf : ((s.map (escapeChar false)).flatten ++ '"' :: rest).length + 1 =
      (((s.map (escapeChar false)).flatten.length - s.length) + rest.length + 1) +
        (s.length + 1) := by
    simp only [List.length_append, List.length_cons]
    omega
  rw [hf]
  exact parseStrBodyF_escape s _ rest

lemma dumpsVal_head (ea : Bool) (lv : Nat) (j : Json) :
    ∃ c cs, dumpsVal ea lv j = c :: cs ∧ isWsChar c = false ∧ c ≠ ']' := by
  cases j with
  | null => exact ⟨'n', ['u', 'l', 'l'], rfl, by decide, by decide⟩
  | bool b =>
    cases b with
    | true => exact ⟨'t', ['r', 'u', 'e'], rfl, by decide, by decide⟩
    | false => exact ⟨'f', ['a', 'l', 's', 'e'], rfl, by decide, by decide⟩
  | num n =>
    by_cases hn : n < 0
    · exact ⟨'-', natChars (-n).toNat, by simp [dumpsVal, intChars, hn], by decide, by decide⟩
    · obtain ⟨d, ds, hnc, hd⟩ := natChars_head n.toNat
      have hf := isDigit_ne d hd
      exact ⟨d, ds, by simp [dumpsVal, intChars, hn, hnc], hf.1, hf.2.1⟩
  | str s => exact ⟨'"', escStr ea s ++ ['"'], rfl, by decide, by decide⟩
  | arr xs =>
    cases xs with
    | nil => exact ⟨'[', [']'], rfl, by decide, by decide⟩
    | cons x t =>
      exact ⟨'[', '\n' :: (indChars (lv + 1) ++ dumpsVal ea (lv + 1) x ++
        dumpsRestA ea (lv + 1) t ++ '\n' :: (indChars lv ++ [']'])), rfl, by decide, by decide⟩
  | obj kvs =>
    cases kvs with
    | nil => exact ⟨'{', ['}'], rfl, by decide, by decide⟩
    | cons m t =>
      obtain ⟨mk, mv⟩ := m
      exact ⟨'{', '\n' :: (indChars (lv + 1) ++ quoteStr ea mk ++ ':' :: ' ' ::
        (dumpsVal ea (lv + 1) mv ++ dumpsRestO ea (lv + 1) t ++ '\n' :: (indChars lv ++ ['}']))),
        rfl, by decide, by decide⟩

lemma skipWs_nl_ind (lv : Nat) (c : Char) (t : List Char) (h : isWsChar c = false) :
    skipWs ('\n' :: (indChars lv ++ c :: t)) = c :: t := by
  rw [skipWs_nl, skipWs_ind, skipWs_cons_not _ h]

lemma parseF_val_null (f : Nat) (cs t : List Char)
    (h : skipWs cs = 'n' :: 'u' :: 'l' :: 'l' :: t) :
    parseF (f + 1) .val cs = some (.null, t) := by
  simp [parseF, h]

lemma parseF_val_true (f : Nat) (cs t : List Char)
    (h : skipWs cs = 't' :: 'r' :: 'u' :: 'e' :: t) :
    parseF (f + 1) .val cs = some (.bool true, t) := by
  simp [parseF, h]

lemma parseF_val_false (f : Nat) (cs t : List Char)
    (h : skipWs cs = 'f' :: 'a' :: 'l' :: 's' :: 'e' :: t) :
    parseF (f + 1) .val cs = some (.bool false, t) := by
  simp [parseF, h]

lemma parseF_val_str (f : Nat) (cs t s' r : List Char)
    (h : skipWs cs = '"' :: t) (hp : parseStrBody t = some (s', r)) :
    parseF (f + 1) .val cs = some (.str (String.mk s'), r) := by
  simp [parseF, h, hp]

lemma parseF_val_neg (f : Nat) (cs t : List Char) (h : skipWs cs = '-' :: t) :
    parseF (f + 1) .val cs = parseNum t true := by
  simp [parseF, h]

lemma parseF_val_digit (f : Nat) (cs : List Char) (c : Char) (t : List Char)
    (h : skipWs cs = c :: t) (hd : c.isDigit = true) :
    parseF (f + 1) .val cs = parseNum (c :: t) false := by
  obtain ⟨-, -, hbrace, hbrack, hquote, ht, hf', hn, hminus⟩ := isDigit_ne c hd
  simp [parseF, h, hd, hbrace, hbrack, hquote, ht, hf', hn, hminus]

lemma parseF_val_arr_nil (f : Nat) (cs t r : List Char)
    (h : skipWs cs = '[' :: t) (h2 : skipWs t = ']' :: r) :
    parseF (f + 1) .val cs = some (.arr [], r) := by
  simp [parseF, h, h2]

lemma parseF_val_arr_cons (f : Nat) (cs t : List Char) (c1 : Char) (r1 : List Char)
    (h : skipWs cs = '[' :: t) (h2 : skipWs t = c1 :: r1) (hne : c1 ≠ ']') :
    parseF (f + 1) .val cs = parseF f (.elems []) (c1 :: r1) := by
  simp [parseF, h, h2, hne]

lemma parseF_val_obj_nil (f : Nat) (cs t r : List Char)
    (h : skipWs cs = '{' :: t) (h2 : skipWs t = '}' :: r) :
    parseF (f + 1) .val cs = some (.obj [], r) := by
  simp [parseF, h, h2]

lemma parseF_val_obj_cons (f : Nat) (cs t : List Char) (c1 : Char) (r1 : List Char)
    (h : skipWs cs = '{' :: t) (h2 : skipWs t = c1 :: r1) (hne : c1 ≠ '}') :
    parseF (f + 1) .val cs = parseF f (.members []) (c1 :: r1) := by
  simp [parseF, h, h2, hne]

lemma parseF_elems_step (f : Nat) (acc : List Json) (cs r : List Char) (v : Json)
    (hv : parseF f .val cs = some (v, r)) :
    parseF (f + 1) (.elems acc) cs =
      match skipWs r with
      | [] => none
      | c :: rest1 =>
        if c = ',' then parseF f (.elems (acc ++ [v])) rest1
        else if c = ']' then some (.arr (acc ++ [v]), rest1)
        else none := by
  simp [parseF, hv]

lemma parseF_members_step (f : Nat) (acc : List (String × Json)) (t u u2 kb : List Char)
    (v : Json) (r3 : List Char)
    (hps : parseStrBody t = some (kb, u))
    (hu : skipWs u = ':' :: u2)
    (hv : parseF f .val u2 = some (v, r3)) :
    parseF (f + 1) (.members acc) ('"' :: t) =
      match skipWs r3 with
      | [] => none
      | c2 :: rest4 =>
        if c2 = ',' then parseF f (.members (dictInsert acc (String.mk kb) v)) (skipWs rest4)
        else if c2 = '}' then some (.obj (dictInsert acc (String.mk kb) v), rest4)
        else none := by
  simp [parseF, hps, hu, hv]

lemma memStr_append (k : String) (l1 l2 : List String) :
    memStr k (l1 ++ l2) = (memStr k l1 || memStr k l2) := by
  induction l1 with
  | nil => simp [memStr]
  | cons a t ih => simp [memStr, ih, Bool.or_assoc]

lemma keysUniqueB_not_head : ∀ (l1 : List String) (k : String) (l2 : List String),
    keysUniqueB (l1 ++ k :: l2) = true → memStr k l1 = false := by
  intro l1
  induction l1 with
  | nil => intro k l2 _; rfl
  | cons a t ih =>
    intro k l2 h
    simp only [List.cons_append, keysUniqueB, Bool.and_eq_true, Bool.not_eq_true'] at h
    obtain ⟨hna, hrest⟩ := h
    have ht := ih k l2 hrest
    simp only [memStr, Bool.or_eq_false_iff]
    refine ⟨?_, ht⟩
    cases hak : a == k with
    | false => rfl
    | true =>
      exfalso
      have : a = k := eq_of_beq hak
      subst this
      simp only [List.append_eq] at hna
      rw [memStr_append] at hna
      simp [memStr] at hna

lemma dictInsert_fresh : ∀ (acc : List (String × Json)) (k : String) (v : Json),
    memStr k (acc.map Prod.fst) = false → dictInsert acc k v = acc ++ [(k, v)] := by
  intro acc
  induction acc with
  | nil => intro k v _; rfl
  | cons a t ih =>
    intro k v h
    obtain ⟨k0, v0⟩ := a
    simp only [List.map_cons, memStr, Bool.or_eq_false_iff] at h
    have hne : k0 ≠ k := by
      intro he
      subst he
      simp at h
    simp [dictInsert, hne, ih k v h.2]

lemma parseStrBody_escStr (s : String) (rest : List Char) :
    parseStrBody (escStr false s ++ '"' :: rest) = some (s.data, rest) := by
  unfold escStr
  exact parseStrBody_escape s.data rest

mutual

theorem parseVal_dumps : ∀ (j : Json), wfB j = true → ∀ (k lv : Nat) (cs rest : List Char),
    skipWs cs = dumpsVal false lv j ++ rest → delimB rest = true →
    parseF (k + fuelFor j) PMode.val cs = some (j, rest)
  | .null, _, k, lv, cs, rest, hcs, _ => by
    have h : skipWs cs = 'n' :: 'u' :: 'l' :: 'l' :: rest := by rw [hcs]; rfl
    exact parseF_val_null k cs rest h
  | .bool true, _, k, lv, cs, rest, hcs, _ => by
    have h : skipWs cs = 't' :: 'r' :: 'u' :: 'e' :: rest := by rw [hcs]; rfl
    exact parseF_val_true k cs rest h
  | .bool false, _, k, lv, cs, rest, hcs, _ => by
    have h : skipWs cs = 'f' :: 'a' :: 'l' :: 's' :: 'e' :: rest := by rw [hcs]; rfl
    exact parseF_val_false k cs rest h
  | .num n, _, k, lv, cs, rest, hcs, hrest => by
    by_cases hn : n < 0
    · have h : skipWs cs = '-' :: (natChars (-n).toNat ++ rest) := by
        rw [hcs]; simp [dumpsVal, intChars, hn]
      have hstep := parseF_val_neg k cs _ h
      rw [show k + fuelFor (Json.num n) = k + 1 from rfl, hstep,
        parseNum_natChars _ true rest hrest]
      simp [numFromParts]
      omega
    · obtain ⟨d, ds, hnc, hd⟩ := natChars_head n.toNat
      have h : skipWs cs = d :: (ds ++ rest) := by
        rw [hcs]; simp [dumpsVal, intChars, hn, hnc]
      have hstep := parseF_val_digit k cs d _ h hd
      have hform : (d :: (ds ++ rest) : List Char) = natChars n.toNat ++ rest := by
        rw [hnc]; simp
      rw [show k + fuelFor (Json.num n) = k + 1 from rfl, hstep, hform,
        parseNum_natChars _ false rest hrest]
      simp [numFromParts]
      omega
  | .str s, _, k, lv, cs, rest, hcs, _ => by
    have h : skipWs cs = '"' :: (escStr false s ++ '"' :: rest) := by
      rw [hcs]; simp [dumpsVal, quoteStr]
    have hstep := parseF_val_str k cs _ s.data rest h (parseStrBody_escStr s rest)
    rw [show k + fuelFor (Json.str s) = k + 1 from rfl, hstep, string_mk_data]
  | .arr [], _, k, lv, cs, rest, hcs, _ => by
    have h : skipWs cs = '[' :: (']' :: rest) := by rw [hcs]; rfl
    exact parseF_val_arr_nil k cs _ rest h (skipWs_cons_not _ (by decide))
  | .arr (x :: xs), hwf, k, lv, cs, rest, hcs, hrest => by
    have hw : wfB x = true ∧ wfBList xs = true := by
      simpa [wfB, wfBList, Bool.and_eq_true] using hwf
    obtain ⟨c1, tl, hd1, hws1, hne1⟩ := dumpsVal_head false (lv + 1) x
    have h : skipWs cs = '[' :: ('\n' :: (indChars (lv + 1) ++ (dumpsVal false (lv + 1) x ++
        (dumpsRestA false (lv + 1) xs ++ '\n' :: (indChars lv ++ ']' :: rest))))) := by
      rw [hcs]; simp [dumpsVal]
    have h2 : skipWs ('\n' :: (indChars (lv + 1) ++ (dumpsVal false (lv + 1) x ++
        (dumpsRestA false (lv + 1) xs ++ '\n' :: (indChars lv ++ ']' :: rest))))) =
        c1 :: (tl ++ (dumpsRestA false (lv + 1) xs ++
          '\n' :: (indChars lv ++ ']' :: rest))) := by
      simp only [hd1, List.cons_append]
      exact skipWs_nl_ind (lv + 1) c1 _ hws1
    have hstep := parseF_val_arr_cons (k + (1 + fuelFor x + fuelElems xs)) cs _ c1 _ h h2 hne1
    rw [show k + fuelFor (Json.arr (x :: xs)) = (k + (1 + fuelFor x + fuelElems xs)) + 1
      from by simp [fuelFor]; omega, hstep]
    have hcs' : skipWs (c1 :: (tl ++ (dumpsRestA false (lv + 1) xs ++
        '\n' :: (indChars lv ++ ']' :: rest)))) =
        dumpsVal false (lv + 1) x ++ (dumpsRestA false (lv + 1) xs ++
          '\n' :: (indChars lv ++ ']' :: rest)) := by
      rw [skipWs_cons_not _ hws1, hd1]
      simp
    have := parseElems_dumps x xs hw.1 hw.2 k lv _ rest [] hcs'
    simpa using this
  | .obj [], _, k, lv, cs, rest, hcs, _ => by
    have h : skipWs cs = '{' :: ('}' :: rest) := by rw [hcs]; rfl
    exact parseF_val_obj_nil k cs _ rest h (skipWs_cons_not _ (by decide))
  | .obj ((kk, v) :: ms), hwf, k, lv, cs, rest, hcs, hrest => by
    have hw : keysUniqueB (kk :: ms.map Prod.fst) = true ∧ wfB v = true ∧
        wfBMembers ms = true := by
      have h' := hwf
      simp only [wfB, wfBMembers, List.map_cons, Bool.and_eq_true] at h'
      exact ⟨h'.1, h'.2.1, h'.2.2⟩
    have h : skipWs cs = '{' :: ('\n' :: (indChars (lv + 1) ++ '"' ::
        (escStr false kk ++ '"' :: (':' :: ' ' :: (dumpsVal false (lv + 1) v ++
          (dumpsRestO false (lv + 1) ms ++ '\n' :: (indChars lv ++ '}' :: rest))))))) := by
      rw [hcs]; simp [dumpsVal, quoteStr]
    have h2 : skipWs ('\n' :: (indChars (lv + 1) ++ '"' ::
        (escStr false kk ++ '"' :: (':' :: ' ' :: (dumpsVal false (lv + 1) v ++
          (dumpsRestO false (lv + 1) ms ++ '\n' :: (indChars lv ++ '}' :: rest))))))) =
        '"' :: (escStr false kk ++ '"' :: (':' :: ' ' :: (dumpsVal false (lv + 1) v ++
          (dumpsRestO false (lv + 1) ms ++ '\n' :: (indChars lv ++ '}' :: rest))))) :=
      skipWs_nl_ind (lv + 1) '"' _ (by decide)
    have hstep := parseF_val_obj_cons (k + (1 + fuelFor v + fuelMembers ms)) cs _ '"' _ h h2
      (by decide)
    rw [show k + fuelFor (Json.obj ((kk, v) :: ms)) =
      (k + (1 + fuelFor v + fuelMembers ms)) + 1 from by simp [fuelFor]; omega, hstep]
    have := parseMembers_dumps kk v ms hw.2.1 hw.2.2 k lv _ rest [] rfl (by simpa using hw.1)
    simpa using this
termination_by j hwf k lv cs rest hcs hrest => sizeOf j

theorem parseElems_dumps : ∀ (x : Json) (xs : List Json), wfB x = true → wfBList xs = true →
    ∀ (k lv : Nat) (cs rest : List Char) (acc : List Json),
    skipWs cs = dumpsVal false (lv + 1) x ++ (dumpsRestA false (lv + 1) xs ++
      '\n' :: (indChars lv ++ ']' :: rest)) →
    parseF (k + (1 + fuelFor x + fuelElems xs)) (PMode.elems acc) cs =
      some (.arr (acc ++ x :: xs), rest)
  | x, [], hwx, _, k, lv, cs, rest, acc, hcs => by
    have hdelim : delimB (dumpsRestA false (lv + 1) ([] : List Json) ++
        '\n' :: (indChars lv ++ ']' :: rest)) = true := by
      simp [dumpsRestA, delimB]
    have hv : parseF (k + fuelElems ([] : List Json) + fuelFor x) PMode.val cs =
        some (x, dumpsRestA false (lv + 1) ([] : List Json) ++
          '\n' :: (indChars lv ++ ']' :: rest)) := by
      rw [show k + fuelElems ([] : List Json) + fuelFor x =
        (k + fuelElems ([] : List Json)) + fuelFor x from by omega]
      exact parseVal_dumps x hwx (k + fuelElems []) (lv + 1) cs _ hcs hdelim
    rw [show k + (1 + fuelFor x + fuelElems ([] : List Json)) =
      (k + fuelElems ([] : List Json) + fuelFor x) + 1 from by omega,
      parseF_elems_step _ acc cs _ x hv]
    rw [show dumpsRestA false (lv + 1) ([] : List Json) ++
        '\n' :: (indChars lv ++ ']' :: rest) = '\n' :: (indChars lv ++ ']' :: rest)
      from by simp [dumpsRestA]]
    rw [skipWs_nl_ind lv ']' rest (by decide)]
    simp
  | x, y :: ys, hwx, hwxs, k, lv, cs, rest, acc, hcs => by
    have hdelim : delimB (dumpsRestA false (lv + 1) (y :: ys) ++
        '\n' :: (indChars lv ++ ']' :: rest)) = true := by
      simp [dumpsRestA, delimB]
    have hv : parseF (k + fuelElems (y :: ys) + fuelFor x) PMode.val cs =
        some (x, dumpsRestA false (lv + 1) (y :: ys) ++
          '\n' :: (indChars lv ++ ']' :: rest)) := by
      rw [show k + fuelElems (y :: ys) + fuelFor x =
        (k + fuelElems (y :: ys)) + fuelFor x from by omega]
      exact parseVal_dumps x hwx (k + fuelElems (y :: ys)) (lv + 1) cs _ hcs hdelim
    rw [show k + (1 + fuelFor x + fuelElems (y :: ys)) =
      (k + fuelElems (y :: ys) + fuelFor x) + 1 from by omega,
      parseF_elems_step _ acc cs _ x hv]
    have hwy : wfB y = true ∧ wfBList ys = true := by
      simpa [wfBList, Bool.and_eq_true] using hwxs
    have hra : dumpsRestA false (lv + 1) (y :: ys) ++ '\n' :: (indChars lv ++ ']' :: rest) =
        ',' :: ('\n' :: (indChars (lv + 1) ++ (dumpsVal false (lv + 1) y ++
          (dumpsRestA false (lv + 1) ys ++ '\n' :: (indChars lv ++ ']' :: rest))))) := by
      simp [dumpsRestA]
    rw [hra, skipWs_cons_not _ (by decide)]
    dsimp only
    rw [if_pos rfl]
    obtain ⟨cy, ty, hdy, hwsy, -⟩ := dumpsVal_head false (lv + 1) y
    have hskip : skipWs ('\n' :: (indChars (lv + 1) ++ (dumpsVal false (lv + 1) y ++
        (dumpsRestA false (lv + 1) ys ++ '\n' :: (indChars lv ++ ']' :: rest))))) =
        dumpsVal false (lv + 1) y ++ (dumpsRestA false (lv + 1) ys ++
          '\n' :: (indChars lv ++ ']' :: rest)) := by
      simp only [hdy, List.cons_append]
      rw [skipWs_nl_ind (lv + 1) cy _ hwsy]
    have hrec := parseElems_dumps y ys hwy.1 hwy.2 (k + fuelFor x) lv _ rest (acc ++ [x])
      (by rw [hskip])
    rw [show k + fuelElems (y :: ys) + fuelFor x =
      (k + fuelFor x) + (1 + fuelFor y + fuelElems ys) from by simp [fuelElems]; omega, hrec]
    simp
termination_by x xs hwx hwxs k lv cs rest acc hcs => 1 + sizeOf x + sizeOf xs

theorem parseMembers_dumps : ∀ (kk : String) (v : Json) (ms : List (String × Json)),
    wfB v = true → wfBMembers ms = true →
    ∀ (k lv : Nat) (cs rest : List Char) (acc : List (String × Json)),
    cs = '"' :: (escStr false kk ++ '"' :: (':' :: ' ' :: (dumpsVal false (lv + 1) v ++
      (dumpsRestO false (lv + 1) ms ++ '\n' :: (indChars lv ++ '}' :: rest))))) →
    keysUniqueB (acc.map Prod.fst ++ kk :: ms.map Prod.fst) = true →
    parseF (k + (1 + fuelFor v + fuelMembers ms)) (PMode.members acc) cs =
      some (.obj (acc ++ (kk, v) :: ms), rest)
  | kk, v, [], hwv, _, k, lv, cs, rest, acc, hcs, hkeys => by
    have hdelim : delimB (dumpsRestO false (lv + 1) ([] : List (String × Json)) ++
        '\n' :: (indChars lv ++ '}' :: rest)) = true := by
      simp [dumpsRestO, delimB]
    have hskipv : skipWs (' ' :: (dumpsVal false (lv + 1) v ++
        (dumpsRestO false (lv + 1) ([] : List (String × Json)) ++
          '\n' :: (indChars lv ++ '}' :: rest)))) =
        dumpsVal false (lv + 1) v ++ (dumpsRestO false (lv + 1) ([] : List (String × Json)) ++
          '\n' :: (indChars lv ++ '}' :: rest)) := by
      obtain ⟨cv, tv, hdv, hwsv, -⟩ := dumpsVal_head false (lv + 1) v
      rw [skipWs_sp]
      simp only [hdv, List.cons_append]
      rw [skipWs_cons_not _ hwsv]
    have hv : parseF (k + fuelMembers ([] : List (String × Json)) + fuelFor v) PMode.val
        (' ' :: (dumpsVal false (lv + 1) v ++
          (dumpsRestO false (lv + 1) ([] : List (String × Json)) ++
            '\n' :: (indChars lv ++ '}' :: rest)))) =
        some (v, dumpsRestO false (lv + 1) ([] : List (String × Json)) ++
          '\n' :: (indChars lv ++ '}' :: rest)) := by
      rw [show k + fuelMembers ([] : List (String × Json)) + fuelFor v =
        (k + fuelMembers ([] : List (String × Json))) + fuelFor v from by omega]
      exact parseVal_dumps v hwv (k + fuelMembers []) (lv + 1) _ _ hskipv hdelim
    have hfresh : memStr kk (acc.map Prod.fst) = false := keysUniqueB_not_head _ _ _ hkeys
    have hdict : dictInsert acc kk v = acc ++ [(kk, v)] := dictInsert_fresh acc kk v hfresh
    rw [hcs, show k + (1 + fuelFor v + fuelMembers ([] : List (String × Json))) =
      (k + fuelMembers ([] : List (String × Json)) + fuelFor v) + 1 from by omega,
      parseF_members_step _ acc _ _ _ kk.data v _ (parseStrBody_escStr kk _)
        (skipWs_cons_not _ (by decide)) hv, string_mk_data, hdict]
    rw [show dumpsRestO false (lv + 1) ([] : List (String × Json)) ++
        '\n' :: (indChars lv ++ '}' :: rest) = '\n' :: (indChars lv ++ '}' :: rest)
      from by simp [dumpsRestO]]
    rw [skipWs_nl_ind lv '}' rest (by decide)]
    simp
  | kk, v, (k2, v2) :: ms', hwv, hwms, k, lv, cs, rest, acc, hcs, hkeys => by
    have hdelim : delimB (dumpsRestO false (lv + 1) ((k2, v2) :: ms') ++
        '\n' :: (indChars lv ++ '}' :: rest)) = true := by
      simp [dumpsRestO, delimB]
    have hskipv : skipWs (' ' :: (dumpsVal false (lv + 1) v ++
        (dumpsRestO false (lv + 1) ((k2, v2) :: ms') ++
          '\n' :: (indChars lv ++ '}' :: rest)))) =
        dumpsVal false (lv + 1) v ++ (dumpsRestO false (lv + 1) ((k2, v2) :: ms') ++
          '\n' :: (indChars lv ++ '}' :: rest)) := by
      obtain ⟨cv, tv, hdv, hwsv, -⟩ := dumpsVal_head false (lv + 1) v
      rw [skipWs_sp]
      simp only [hdv, List.cons_append]
      rw [skipWs_cons_not _ hwsv]
    have hv : parseF (k + fuelMembers ((k2, v2) :: ms') + fuelFor v) PMode.val
        (' ' :: (dumpsVal false (lv + 1) v ++ (dumpsRestO false (lv + 1) ((k2, v2) :: ms') ++
          '\n' :: (indChars lv ++ '}' :: rest)))) =
        some (v, dumpsRestO false (lv + 1) ((k2, v2) :: ms') ++
          '\n' :: (indChars lv ++ '}' :: rest)) := by
      rw [show k + fuelMembers ((k2, v2) :: ms') + fuelFor v =
        (k + fuelMembers ((k2, v2) :: ms')) + fuelFor v from by omega]
      exact parseVal_dumps v hwv (k + fuelMembers ((k2, v2) :: ms')) (lv + 1) _ _ hskipv hdelim
    have hfresh : memStr kk (acc.map Prod.fst) = false := keysUniqueB_not_head _ _ _ hkeys
    have hdict : dictInsert acc kk v = acc ++ [(kk, v)] := dictInsert_fresh acc kk v hfresh
    rw [hcs, show k + (1 + fuelFor v + fuelMembers ((k2, v2) :: ms')) =
      (k + fuelMembers ((k2, v2) :: ms') + fuelFor v) + 1 from by omega,
      parseF_members_step _ acc _ _ _ kk.data v _ (parseStrBody_escStr kk _)
        (skipWs_cons_not _ (by decide)) hv, string_mk_data, hdict]
    have hwm : wfB v2 = true ∧ wfBMembers ms' = true := by
      simpa [wfBMembers, Bool.and_eq_true] using hwms
    have hro : dumpsRestO false (lv + 1) ((k2, v2) :: ms') ++
        '\n' :: (indChars lv ++ '}' :: rest) =
        ',' :: ('\n' :: (indChars (lv + 1) ++ '"' :: (escStr false k2 ++ '"' ::
          (':' :: ' ' :: (dumpsVal false (lv + 1) v2 ++ (dumpsRestO false (lv + 1) ms' ++
            '\n' :: (indChars lv ++ '}' :: rest))))))) := by
      simp [dumpsRestO, quoteStr]
    rw [hro, skipWs_cons_not _ (by decide)]
    dsimp only
    rw [if_pos rfl]
    rw [skipWs_nl_ind (lv + 1) '"' _ (by decide)]
    have hkeys' : keysUniqueB ((acc ++ [(kk, v)]).map Prod.fst ++
        k2 :: ms'.map Prod.fst) = true := by
      have heq : (acc ++ [(kk, v)]).map Prod.fst ++ k2 :: ms'.map Prod.fst =
          acc.map Prod.fst ++ kk :: ((k2, v2) :: ms').map Prod.fst := by simp
      rw [heq]
      exact hkeys
    have hrec := parseMembers_dumps k2 v2 ms' hwm.1 hwm.2 (k + fuelFor v) lv _ rest
      (acc ++ [(kk, v)]) rfl hkeys'
    rw [show k + fuelMembers ((k2, v2) :: ms') + fuelFor v =
      (k + fuelFor v) + (1 + fuelFor v2 + fuelMembers ms') from by simp [fuelMembers]; omega,
      hrec]
    simp
termination_by kk v ms hwv hwms k lv cs rest acc hcs hkeys => 1 + sizeOf v + sizeOf ms

end

mutual

theorem fuelFor_le : ∀ (j : Json) (ea : Bool) (lv : Nat),
    fuelFor j ≤ (dumpsVal ea lv j).length
  | .null, ea, lv => by simp [fuelFor, dumpsVal]
  | .bool true, ea, lv => by simp [fuelFor, dumpsVal]
  | .bool false, ea, lv => by simp [fuelFor, dumpsVal]
  | .num n, ea, lv => by
    by_cases hn : n < 0
    · simp [fuelFor, dumpsVal, intChars, hn]
    · obtain ⟨d, ds, hnc, -⟩ := natChars_head n.toNat
      simp [fuelFor, dumpsVal, intChars, hn, hnc]
  | .str s, ea, lv => by simp [fuelFor, dumpsVal, quoteStr]
  | .arr [], ea, lv => by simp [fuelFor, dumpsVal]
  | .arr (x :: xs), ea, lv => by
    have h1 := fuelFor_le x ea (lv + 1)
    have h2 := fuelElems_le xs ea (lv + 1)
    simp [fuelFor, dumpsVal, indChars]
    omega
  | .obj [], ea, lv => by simp [fuelFor, dumpsVal]
  | .obj ((kk, v) :: ms), ea, lv => by
    have h1 := fuelFor_le v ea (lv + 1)
    have h2 := fuelMembers_le ms ea (lv + 1)
    simp [fuelFor, dumpsVal, quoteStr, indChars]
    omega
termination_by j ea lv => sizeOf j

theorem fuelElems_le : ∀ (xs : List Json) (ea : Bool) (lv : Nat),
    fuelElems xs ≤ (dumpsRestA ea lv xs).length
  | [], ea, lv => by simp [fuelElems, dumpsRestA]
  | x :: xs, ea, lv => by
    have h1 := fuelFor_le x ea lv
    have h2 := fuelElems_le xs ea lv
    simp [fuelElems, dumpsRestA, indChars]
    omega
termination_by xs ea lv => sizeOf xs

theorem fuelMembers_le : ∀ (ms : List (String × Json)) (ea : Bool) (lv : Nat),
    fuelMembers ms ≤ (dumpsRestO ea lv ms).length
  | [], ea, lv => by simp [fuelMembers, dumpsRestO]
  | (kk, v) :: ms, ea, lv => by
    have h1 := fuelFor_le v ea lv
    have h2 := fuelMembers_le ms ea lv
    simp [fuelMembers, dumpsRestO, quoteStr, indChars]
    omega
termination_by ms ea lv => sizeOf ms

end

/-- C7: parsing the text the JSON exporter writes to `voices.json` yields a
structure equal to the original parsed response (any well-formed parsed
value — unique object keys, as Python dicts guarantee — survives the
`dumps`/`loads` round trip, extra top-level keys and non-ASCII text
included). -/
theorem c7_json_roundtrip (d : Json) (h : wfB d = true) : loads (dumps d) = some d := by
  unfold loads dumps
  have hdata : (String.mk (dumpsVal false 0 d)).data = dumpsVal false 0 d := rfl
  rw [hdata]
  have hle : fuelFor d ≤ (dumpsVal false 0 d).length := fuelFor_le d false 0
  obtain ⟨c0, t0, hd0, hws0, -⟩ := dumpsVal_head false 0 d
  have hcs : skipWs (dumpsVal false 0 d) = dumpsVal false 0 d ++ [] := by
    rw [List.append_nil, hd0]
    exact skipWs_cons_not _ hws0
  have hmain := parseVal_dumps d h ((dumpsVal false 0 d).length + 1 - fuelFor d) 0
    (dumpsVal false 0 d) [] hcs (by simp [delimB])
  rw [show (dumpsVal false 0 d).length + 1 =
    ((dumpsVal false 0 d).length + 1 - fuelFor d) + fuelFor d from by omega]
  rw [hmain]
  simp [skipWs]

theorem c7_json_roundtrip_witness :
    wfB witnessJson = true ∧ loads (dumps witnessJson) = some witnessJson :=
  ⟨rfl, c7_json_roundtrip witnessJson rfl⟩

end VoicesExport